import Mathlib

/-!
Shallow embedding of the `RestApi` derive macro of `very_simple_rest`
(`crates/rest_macro/src/lib.rs`).  The macro reads a struct definition with
`rest_api`, `require_role` and `relation` attributes and emits CRUD handlers.
We model the compile-time computation of the macro (attribute parsing, the
per-field loop building SQL fragments and binding lists) and the runtime
behaviour of each generated handler (role gate, statement text, bound values,
response mapping), with the database stubbed by the result it would return.
-/

namespace VerySimpleRest

/-- A literal in an attribute, mirroring `syn::Lit` restricted to the kinds
the macro inspects (string literals and everything else). -/
inductive Lit where
  | str (s : String)
  | int (n : Int)
deriving DecidableEq, Repr

/-- One `key = value` item inside the parenthesised list of an attribute,
as consumed by `parse_nested_meta`. -/
structure MetaItem where
  key : String
  val : Lit
deriving DecidableEq, Repr

/-- One attribute `#[path(items...)]` on the struct or a field. -/
structure Attr where
  path : String
  items : List MetaItem
deriving DecidableEq, Repr

/-- One named field of the input struct: its name, the token string the macro
obtains for its type (used only for the SQL column type), and its attributes. -/
structure FieldInput where
  name : String
  tyStr : String
  attrs : List Attr
deriving DecidableEq, Repr

/-- Input of the macro: the struct name, struct-level attributes and the
ordered named fields. -/
structure EntityInput where
  structName : String
  attrs : List Attr
  fields : List FieldInput
deriving DecidableEq, Repr

/-- Model of `parse_nested_meta` (from syn) with a stateful closure: items are visited in
order; the first closure error aborts the traversal, keeping the state
mutations made so far.  The macro discards the returned `Result` with
`let _ = ...`, so only the final state matters. -/
def parseNestedMeta (f : σ → MetaItem → Except String σ) : σ → List MetaItem → σ
  | s, [] => s
  | s, m :: ms =>
    match f s m with
    | .ok s2 => parseNestedMeta f s2 ms
    | .error _ => s

/-- Closure of the `rest_api` attribute loop: only the `db` key with a string
literal changes the dialect; `table`, `id` and any other key are parsed and
dropped. -/
def dbMetaStep (dbType : String) (m : MetaItem) : Except String String :=
  if m.key == "db" then
    match m.val with
    | .str s => .ok s
    | _ => .ok dbType
  else .ok dbType

/-- Accumulated `db_type`: starts at `"sqlite"`, updated by every `rest_api` attribute. -/
def parseDbType (attrs : List Attr) : String :=
  attrs.foldl
    (fun db a => if a.path == "rest_api" then parseNestedMeta dbMetaStep db a.items else db)
    "sqlite"

/-- The pool type chosen from the dialect string (`AnyPool` is the generic
fallback for unknown dialects). -/
def poolType (db : String) : String :=
  if db == "sqlite" then "SqlitePool"
  else if db == "mysql" then "MySqlPool"
  else if db == "postgres" then "PgPool"
  else "AnyPool"

/-- Per-operation role requirements (`read` / `update` / `delete`). -/
structure Roles where
  read : Option String
  update : Option String
  delete : Option String
deriving DecidableEq, Repr

/-- Closure of the `require_role` attribute loop: each value is parsed as a
string literal (a non-string literal is a parse error, aborting the
traversal); recognised keys set the corresponding role. -/
def roleMetaStep (r : Roles) (m : MetaItem) : Except String Roles :=
  match m.val with
  | .str v =>
    if m.key == "read" then .ok { r with read := some v }
    else if m.key == "update" then .ok { r with update := some v }
    else if m.key == "delete" then .ok { r with delete := some v }
    else .ok r
  | _ => .error "expected string literal"

/-- Parse all `require_role` attributes, starting from no requirements. -/
def parseRoles (attrs : List Attr) : Roles :=
  attrs.foldl
    (fun r a => if a.path == "require_role" then parseNestedMeta roleMetaStep r a.items else r)
    ⟨none, none, none⟩

/-- Locals of one `relation` attribute parse (`foreign_key`, `references`,
`nested_route`). -/
structure RelLocals where
  foreignKey : Option String
  references : Option String
  nestedRoute : Bool
deriving DecidableEq, Repr

/-- Closure of the `relation` attribute loop. -/
def relMetaStep (l : RelLocals) (m : MetaItem) : Except String RelLocals :=
  if m.key == "foreign_key" then
    match m.val with
    | .str v => .ok { l with foreignKey := some v }
    | _ => .error "expected string literal"
  else if m.key == "references" then
    match m.val with
    | .str v => .ok { l with references := some v }
    | _ => .error "expected string literal"
  else if m.key == "nested_route" then
    match m.val with
    | .str v => .ok { l with nestedRoute := v == "true" }
    | _ => .error "expected string literal"
  else .ok l

/-- ASCII lowercasing of one character (the struct names fed to the macro are
ASCII identifiers, on which Rust `to_lowercase` acts exactly like this). -/
def lowerChar (c : Char) : Char :=
  if 'A' ≤ c ∧ c ≤ 'Z' then Char.ofNat (c.toNat + 32) else c

/-- ASCII lowercasing of a string (`struct_name.to_string().to_lowercase()`). -/
def strToLower (s : String) : String := String.mk (s.data.map lowerChar)

/-- Split a character list at every occurrence of `sep`, keeping empty
chunks, exactly like the Rust `str::split` iterator over a `char` pattern. -/
def splitOnChar (sep : Char) : List Char → List (List Char)
  | [] => [[]]
  | c :: t =>
    if c = sep then [] :: splitOnChar sep t
    else
      match splitOnChar sep t with
      | [] => [[c]]
      | g :: gs => (c :: g) :: gs

/-- The `refs.split('.')` of the relation parsing, as a list of strings. -/
def splitOnDot (s : String) : List String := (splitOnChar '.' s.data).map String.mk

/-- Mutable state of the field loop of the macro. -/
structure LoopState where
  fieldDefs : List String
  fieldNames : List String
  bindInsert : List String
  bindUpdate : List String
  updateClauses : List String
  skipInsert : List String
  relationField : String
  relationParentTable : String
deriving DecidableEq, Repr

def initState : LoopState :=
  { fieldDefs := [], fieldNames := [], bindInsert := [], bindUpdate := []
    updateClauses := [], skipInsert := [], relationField := ""
    relationParentTable := "" }

/-- Process one `relation` attribute on a field: parse its locals afresh, and
when both `foreign_key` and `references` are present and the reference splits
into exactly two parts on the dot character, record the relation (last
writer wins). -/
def processRelationAttr (st : LoopState) (fname : String) (items : List MetaItem) :
    LoopState :=
  let l := parseNestedMeta relMetaStep ⟨none, none, false⟩ items
  match l.foreignKey, l.references with
  | some _, some refs =>
    let parts := splitOnDot refs
    if parts.length == 2 then
      { st with relationField := fname, relationParentTable := parts.headI }
    else st
  | _, _ => st

/-- Whether `needle` matches at the head of `hay`. -/
def leadMatch : List Char → List Char → Bool
  | [], _ => true
  | _ :: _, [] => false
  | a :: as, b :: bs => a == b && leadMatch as bs

/-- Whether `needle` occurs somewhere in `hay` (the `contains` method of Rust
string slices). -/
def hasSub (needle : List Char) : List Char → Bool
  | [] => leadMatch needle []
  | c :: t => leadMatch needle (c :: t) || hasSub needle t

def strContains (hay needle : String) : Bool :=
  hasSub needle.toList hay.toList

/-- The SQL column type chosen from the type token string of the field. -/
def sqlType (tyStr : String) : String :=
  if strContains tyStr "i32" || strContains tyStr "i64" then "INTEGER"
  else if strContains tyStr "f32" || strContains tyStr "f64" then "REAL"
  else "TEXT"

/-- One iteration of the field loop of the macro (lines 116–194 of the source):
relation attributes first, then the timestamp short-circuit, then column
definition, insert binding, and update clause/binding. -/
def processField (dbType : String) (st : LoopState) (f : FieldInput) : LoopState :=
  let st := f.attrs.foldl
    (fun s a => if a.path == "relation" then processRelationAttr s f.name a.items else s) st
  if f.name == "created_at" || f.name == "updated_at" then
    { st with
      fieldDefs := st.fieldDefs ++ [f.name ++ " TEXT DEFAULT CURRENT_TIMESTAMP"]
      skipInsert := st.skipInsert ++ [f.name]
      updateClauses :=
        if f.name == "updated_at" then st.updateClauses ++ ["updated_at = CURRENT_TIMESTAMP"]
        else st.updateClauses }
  else
    let ty := sqlType f.tyStr
    let isId := f.name == "id"
    let st :=
      if isId then
        { st with
          fieldDefs := st.fieldDefs ++ [f.name ++ " INTEGER PRIMARY KEY AUTOINCREMENT"]
          skipInsert := st.skipInsert ++ [f.name] }
      else
        { st with fieldDefs := st.fieldDefs ++ [f.name ++ " " ++ ty] }
    let st := { st with fieldNames := st.fieldNames ++ [f.name] }
    let st :=
      if st.skipInsert.contains f.name then st
      else { st with bindInsert := st.bindInsert ++ [f.name] }
    if !isId && f.name != "created_at" && f.name != "updated_at" then
      let clause :=
        if dbType == "postgres" then
          f.name ++ " = $" ++ toString (st.updateClauses.length + 1)
        else
          f.name ++ " = ?"
      { st with
        bindUpdate := st.bindUpdate ++ [f.name]
        updateClauses := st.updateClauses ++ [clause] }
    else st

/-- Everything the macro computes for one entity at expansion time. -/
structure Compiled where
  structName : String
  lowerName : String
  tableName : String
  idField : String
  dbType : String
  pool : String
  roles : Roles
  st : LoopState
  insertFields : List String
  insertPlaceholders : String
  updateSql : String
  insertFieldsCsv : String
  fieldDefsSql : String
  partialFields : List String
deriving DecidableEq, Repr

/-- The macro body: attribute parsing, the field loop, and the derived SQL
fragments.  `table_name` is the lowercased struct name and `id_field` the
literal `"id"`, whatever the `rest_api` attribute says. -/
def compile (e : EntityInput) : Compiled :=
  let lower := strToLower e.structName
  let dbType := parseDbType e.attrs
  let roles := parseRoles e.attrs
  let st := e.fields.foldl (processField dbType) initState
  let insertFields := st.fieldNames.filter (fun f => !st.skipInsert.contains f)
  { structName := e.structName
    lowerName := lower
    tableName := lower
    idField := "id"
    dbType := dbType
    pool := poolType dbType
    roles := roles
    st := st
    insertFields := insertFields
    insertPlaceholders := String.intercalate ", " (insertFields.map (fun _ => "?"))
    updateSql := String.intercalate ", " st.updateClauses
    insertFieldsCsv := String.intercalate ", " insertFields
    fieldDefsSql := String.intercalate ", " st.fieldDefs
    partialFields := (e.fields.filter (fun f => f.name != "id")).map (·.name) }

/-! ## Generated handlers

Each handler is modelled as a function of the compiled entity, the role set
of the caller, the request data, and the stubbed database outcome; it returns the
HTTP response together with the list of SQL statements it dispatched (each
with its bound values, in binding order). -/

/-- HTTP responses the generated handlers can produce. -/
inductive Resp where
  | ok
  | created
  | notFound
  | forbidden
  | internalError (msg : String)
deriving DecidableEq, Repr

/-- A dispatched statement: SQL text and bound values in binding order. -/
abbrev Stmt := String × List String

/-- The generated role gate: when a role is required, the caller passes iff
the role set contains `"admin"` or the required role; with no requirement
everyone passes. -/
def roleCheckPasses (required : Option String) (roles : List String) : Bool :=
  match required with
  | none => true
  | some role => roles.contains "admin" || roles.contains role

/-- Handler for `GET /<table>`. -/
def get_all (c : Compiled) (user : List String) (db : Except String (List String)) :
    Resp × List Stmt :=
  if !roleCheckPasses c.roles.read user then (.forbidden, [])
  else
    let sql := "SELECT * FROM " ++ c.tableName
    match db with
    | .ok _ => (.ok, [(sql, [])])
    | .error e => (.internalError e, [(sql, [])])

/-- Handler for `GET /<table>/{id}` (`fetch_optional`; `None` maps to 404). -/
def get_one (c : Compiled) (user : List String) (id : Int)
    (db : Except String (Option String)) : Resp × List Stmt :=
  if !roleCheckPasses c.roles.read user then (.forbidden, [])
  else
    let sql := "SELECT * FROM " ++ c.tableName ++ " WHERE " ++ c.idField ++ " = ?"
    match db with
    | .ok (some _) => (.ok, [(sql, [toString id])])
    | .ok none => (.notFound, [(sql, [toString id])])
    | .error e => (.internalError e, [(sql, [toString id])])

/-- Handler for `POST /<table>` (gated by the update role). -/
def create (c : Compiled) (user : List String) (item : String → String)
    (db : Except String Nat) : Resp × List Stmt :=
  if !roleCheckPasses c.roles.update user then (.forbidden, [])
  else
    let sql := "INSERT INTO " ++ c.tableName ++ " (" ++ c.insertFieldsCsv ++ ") VALUES ("
      ++ c.insertPlaceholders ++ ")"
    let binds := c.st.bindInsert.map item
    match db with
    | .ok _ => (.created, [(sql, binds)])
    | .error e => (.internalError e, [(sql, binds)])

/-- Handler for `PUT /<table>/{id}`: note that any successful execution maps to 200, the
affected-row count is ignored. -/
def update (c : Compiled) (user : List String) (id : Int) (item : String → String)
    (db : Except String Nat) : Resp × List Stmt :=
  if !roleCheckPasses c.roles.update user then (.forbidden, [])
  else
    let sql := "UPDATE " ++ c.tableName ++ " SET " ++ c.updateSql ++ " WHERE "
      ++ c.idField ++ " = ?"
    let binds := c.st.bindUpdate.map item ++ [toString id]
    match db with
    | .ok _ => (.ok, [(sql, binds)])
    | .error e => (.internalError e, [(sql, binds)])

/-- Handler for `DELETE /<table>/{id}`: any successful execution maps to 200, the
affected-row count is ignored. -/
def delete (c : Compiled) (user : List String) (id : Int) (db : Except String Nat) :
    Resp × List Stmt :=
  if !roleCheckPasses c.roles.delete user then (.forbidden, [])
  else
    let sql := "DELETE FROM " ++ c.tableName ++ " WHERE " ++ c.idField ++ " = ?"
    match db with
    | .ok _ => (.ok, [(sql, [toString id])])
    | .error e => (.internalError e, [(sql, [toString id])])

/-- State of the PATCH SET-clause builder: the SQL string so far and the
`first` flag tracking whether any assignment has been emitted. -/
structure PatchBuild where
  sql : String
  first : Bool
deriving DecidableEq, Repr

/-- A PATCH request body: each field name maps to its value when present. -/
abbrev PatchBody := String → Option String

/-- One generated `set_tokens` block: id and timestamp fields are skipped at
generation time; a present field appends `", "` (unless first) then
`<name> = ?`. -/
def patchSetStep (body : PatchBody) (acc : PatchBuild) (name : String) : PatchBuild :=
  if name == "id" || name == "created_at" || name == "updated_at" then acc
  else if (body name).isSome then
    let sql := if !acc.first then acc.sql ++ ", " else acc.sql
    { sql := sql ++ name ++ " = ?", first := false }
  else acc

/-- The PATCH SET clause after all `set_tokens` and the `updated_at_code`
block, which is generated only when `field_names` contains `"updated_at"`. -/
def patchAfterSet (c : Compiled) (body : PatchBody) : PatchBuild :=
  let acc := c.st.fieldNames.foldl (patchSetStep body)
    { sql := "UPDATE " ++ c.tableName ++ " SET ", first := true }
  if c.st.fieldNames.contains "updated_at" then
    if !acc.first then { acc with sql := acc.sql ++ ", updated_at = CURRENT_TIMESTAMP" }
    else { sql := acc.sql ++ "updated_at = CURRENT_TIMESTAMP", first := false }
  else acc

/-- The generated `bind_tokens`: values of present fields, in field order. -/
def patchBinds (c : Compiled) (body : PatchBody) : List String :=
  c.st.fieldNames.foldl
    (fun bs name =>
      if name == "id" || name == "created_at" || name == "updated_at" then bs
      else
        match body name with
        | some v => bs ++ [v]
        | none => bs)
    []

/-- Handler for `PATCH /<table>/{id}` (gated by the update role): with no present field
the handler short-circuits to 200 without touching the database; otherwise a
zero affected-row count maps to 404. -/
def patch (c : Compiled) (user : List String) (id : Int) (body : PatchBody)
    (db : Except String Nat) : Resp × List Stmt :=
  if !roleCheckPasses c.roles.update user then (.forbidden, [])
  else
    let b := patchAfterSet c body
    if b.first then (.ok, [])
    else
      let sql := b.sql ++ " WHERE id = ?"
      let binds := patchBinds c body ++ [toString id]
      match db with
      | .ok n => if n > 0 then (.ok, [(sql, binds)]) else (.notFound, [(sql, binds)])
      | .error e => (.internalError e, [(sql, binds)])

/-- Handler for `GET /<parentTable>/{parentId}/<table>` (generated only when a relation
was recorded). -/
def get_by_parent_id (c : Compiled) (user : List String) (pid : Int)
    (db : Except String (List String)) : Resp × List Stmt :=
  if !roleCheckPasses c.roles.read user then (.forbidden, [])
  else
    let sql := "SELECT * FROM " ++ c.tableName ++ " WHERE " ++ c.st.relationField ++ " = ?"
    match db with
    | .ok _ => (.ok, [(sql, [toString pid])])
    | .error e => (.internalError e, [(sql, [toString pid])])

/-- The routes `configure` registers: the collection and item resources
always, the nested route exactly when `relation_field` is non-empty (the
parsed `nested_route` boolean plays no part). -/
def routes (c : Compiled) : List (String × String) :=
  [("GET", "/" ++ c.tableName), ("POST", "/" ++ c.tableName),
   ("GET", "/" ++ c.tableName ++ "/{id}"), ("PUT", "/" ++ c.tableName ++ "/{id}"),
   ("PATCH", "/" ++ c.tableName ++ "/{id}"), ("DELETE", "/" ++ c.tableName ++ "/{id}")]
  ++ (if c.st.relationField.isEmpty then []
      else [("GET", "/" ++ c.st.relationParentTable ++ "/{parent_id}/" ++ c.tableName)])

/-! ## Concrete entities (from `examples/demo/src/main.rs`) -/

/-- The `Post` entity of the demo (sqlite dialect). -/
def postInput : EntityInput :=
  { structName := "Post"
    attrs :=
      [⟨"rest_api", [⟨"table", .str "post"⟩, ⟨"id", .str "id"⟩, ⟨"db", .str "sqlite"⟩]⟩,
       ⟨"require_role",
        [⟨"read", .str "user"⟩, ⟨"update", .str "user"⟩, ⟨"patch", .str "user"⟩,
         ⟨"delete", .str "user"⟩]⟩]
    fields :=
      [⟨"id", "pub id : Option < i64 > . ty", []⟩,
       ⟨"title", "pub title : String . ty", []⟩,
       ⟨"content", "pub content : String . ty", []⟩,
       ⟨"created_at", "pub created_at : Option < String > . ty", []⟩,
       ⟨"updated_at", "pub updated_at : Option < String > . ty", []⟩] }

/-- The same `Post` entity declared with the postgres dialect. -/
def postPgInput : EntityInput :=
  { postInput with
    attrs :=
      [⟨"rest_api", [⟨"table", .str "post"⟩, ⟨"id", .str "id"⟩, ⟨"db", .str "postgres"⟩]⟩,
       ⟨"require_role",
        [⟨"read", .str "user"⟩, ⟨"update", .str "user"⟩, ⟨"delete", .str "user"⟩]⟩] }

/-- The `Comment` entity of the demo, with the relation on `post_id`. -/
def commentInput : EntityInput :=
  { structName := "Comment"
    attrs :=
      [⟨"rest_api", [⟨"table", .str "comment"⟩, ⟨"id", .str "id"⟩, ⟨"db", .str "sqlite"⟩]⟩,
       ⟨"require_role",
        [⟨"read", .str "user"⟩, ⟨"update", .str "user"⟩, ⟨"patch", .str "user"⟩,
         ⟨"delete", .str "user"⟩]⟩]
    fields :=
      [⟨"id", "pub id : Option < i64 > . ty", []⟩,
       ⟨"title", "pub title : String . ty", []⟩,
       ⟨"content", "pub content : String . ty", []⟩,
       ⟨"post_id", "pub post_id : i64 . ty",
        [⟨"relation",
          [⟨"foreign_key", .str "post_id"⟩, ⟨"references", .str "post.id"⟩,
           ⟨"nested_route", .str "true"⟩]⟩]⟩,
       ⟨"created_at", "pub created_at : Option < String > . ty", []⟩,
       ⟨"updated_at", "pub updated_at : Option < String > . ty", []⟩] }

/-- An entity with no `require_role` attribute at all (every authenticated
caller passes every gate). -/
def itemInput : EntityInput :=
  { structName := "Item"
    attrs := [⟨"rest_api", [⟨"db", .str "sqlite"⟩]⟩]
    fields :=
      [⟨"id", "pub id : Option < i64 > . ty", []⟩,
       ⟨"name", "pub name : String . ty", []⟩] }

/-- The `Comment` entity with a malformed relation reference (no dot, so not
a two-part `table.column` string). -/
def badRefsCommentInput : EntityInput :=
  { commentInput with
    fields :=
      [⟨"id", "pub id : Option < i64 > . ty", []⟩,
       ⟨"title", "pub title : String . ty", []⟩,
       ⟨"content", "pub content : String . ty", []⟩,
       ⟨"post_id", "pub post_id : i64 . ty",
        [⟨"relation",
          [⟨"foreign_key", .str "post_id"⟩, ⟨"references", .str "postid"⟩]⟩]⟩,
       ⟨"created_at", "pub created_at : Option < String > . ty", []⟩,
       ⟨"updated_at", "pub updated_at : Option < String > . ty", []⟩] }

/-- The `Comment` entity with the relation attribute removed entirely. -/
def noRelCommentInput : EntityInput :=
  { commentInput with
    fields :=
      [⟨"id", "pub id : Option < i64 > . ty", []⟩,
       ⟨"title", "pub title : String . ty", []⟩,
       ⟨"content", "pub content : String . ty", []⟩,
       ⟨"post_id", "pub post_id : i64 . ty", []⟩,
       ⟨"created_at", "pub created_at : Option < String > . ty", []⟩,
       ⟨"updated_at", "pub updated_at : Option < String > . ty", []⟩] }

/-- The `Comment` entity with an arbitrary `nested_route` value. -/
def commentWithNested (v : String) : EntityInput :=
  { commentInput with
    fields :=
      [⟨"id", "pub id : Option < i64 > . ty", []⟩,
       ⟨"title", "pub title : String . ty", []⟩,
       ⟨"content", "pub content : String . ty", []⟩,
       ⟨"post_id", "pub post_id : i64 . ty",
        [⟨"relation",
          [⟨"foreign_key", .str "post_id"⟩, ⟨"references", .str "post.id"⟩,
           ⟨"nested_route", .str v⟩]⟩]⟩,
       ⟨"created_at", "pub created_at : Option < String > . ty", []⟩,
       ⟨"updated_at", "pub updated_at : Option < String > . ty", []⟩] }

/-! ## Specification-side helpers

These definitions formalise the wording of the specification (placeholder
sequences, expected ordinal SET clauses); they are compared against what the
embedded code produces. -/

/-- A SQL parameter placeholder: positional `?` or ordinal `$n`. -/
inductive Placeholder where
  | q
  | ord (n : Nat)
deriving DecidableEq, Repr

/-- Numeric value of a digit character run. -/
def digitsVal (acc : Nat) (c : Char) : Nat :=
  acc * 10 + (c.toNat - 48)

mutual

/-- Scan a SQL string (as characters) for its placeholder occurrences, in
order: `?` is a positional placeholder, `$` followed by digits an ordinal
one. -/
def scanPhAux : List Char → List Placeholder
  | [] => []
  | c :: t =>
    if c = '?' then .q :: scanPhAux t
    else if c = '$' then scanOrd 0 t
    else scanPhAux t

/-- Digit-consuming state of the placeholder scanner. -/
def scanOrd (acc : Nat) : List Char → List Placeholder
  | [] => [.ord acc]
  | c :: t =>
    if c.isDigit then scanOrd (digitsVal acc c) t
    else .ord acc ::
      (if c = '?' then .q :: scanPhAux t
       else if c = '$' then scanOrd 0 t
       else scanPhAux t)

end

/-- Placeholder occurrences of a SQL string, in order. -/
def scanPlaceholders (sql : String) : List Placeholder :=
  scanPhAux sql.toList

/-- The SET clauses `"<name> = $<k+1>", "<name2> = $<k+2>", ...` the
specification expects for a postgres update over the given field names,
starting after `k` already-emitted clauses. -/
def ordClauses (k : Nat) : List String → List String
  | [] => []
  | n :: t => (n ++ " = $" ++ toString (k + 1)) :: ordClauses (k + 1) t

/-! ## Derived definitions used by the proofs -/

/-- Shorthand for the relation-attribute fold at the head of `processField`. -/
def relFold (fname : String) (st : LoopState) (attrs : List Attr) : LoopState :=
  attrs.foldl (fun s a => if a.path == "relation" then processRelationAttr s fname a.items else s) st

/-- The names the field loop pushes onto `field_names`: every field except
the two timestamp fields (the id field is included). -/
def namesOf : List FieldInput → List String
  | [] => []
  | f :: t =>
    if f.name == "created_at" || f.name == "updated_at" then namesOf t
    else f.name :: namesOf t

/-- The names the field loop inserts into `skip_insert_fields`: timestamp
fields and the id field. -/
def skipsOf : List FieldInput → List String
  | [] => []
  | f :: t =>
    if f.name == "created_at" || f.name == "updated_at" then f.name :: skipsOf t
    else if f.name == "id" then f.name :: skipsOf t
    else skipsOf t

/-- A PATCH body with its timestamp entries removed. -/
def scrubTs (body : PatchBody) : PatchBody :=
  fun n => if n == "created_at" || n == "updated_at" then none else body n

/-- The id field of the demo entities. -/
def idF : FieldInput := ⟨"id", "pub id : Option < i64 > . ty", []⟩

/-- The updated-timestamp field of the demo entities. -/
def updF : FieldInput := ⟨"updated_at", "pub updated_at : Option < String > . ty", []⟩

/-- A postgres entity: id first, then the given regular fields, then the
updated-timestamp field last. -/
def mkPgEntity (fs : List FieldInput) : EntityInput :=
  ⟨"Post", [⟨"rest_api", [⟨"db", .str "postgres"⟩]⟩], idF :: fs ++ [updF]⟩

/-- The regular fields of the demo `Post` entity. -/
def pgDemoFields : List FieldInput :=
  [⟨"title", "pub title : String . ty", []⟩, ⟨"content", "pub content : String . ty", []⟩]

/-- A postgres entity declaring the updated-timestamp field before a regular
field (exercises the ordinal shift). -/
def postPgEarlyTs : EntityInput :=
  ⟨"Post", [⟨"rest_api", [⟨"db", .str "postgres"⟩]⟩],
   [idF, updF, ⟨"title", "pub title : String . ty", []⟩]⟩

/-! ## Structural lemmas about the field loop and the PATCH builder -/

/-- A relation attribute only ever rewrites the two relation slots of the
loop state. -/
theorem processRelationAttr_shape (st : LoopState) (fname : String) (items : List MetaItem) :
    ∃ rf rpt, processRelationAttr st fname items =
      { st with relationField := rf, relationParentTable := rpt } := by
  simp only [processRelationAttr]
  generalize parseNestedMeta relMetaStep ⟨none, none, false⟩ items = l
  cases l with
  | mk fk refs nr =>
    cases fk with
    | none => exact ⟨st.relationField, st.relationParentTable, rfl⟩
    | some f =>
      cases refs with
      | none => exact ⟨st.relationField, st.relationParentTable, rfl⟩
      | some r =>
        by_cases h : ((splitOnDot r).length == 2) = true
        · exact ⟨fname, (splitOnDot r).headI, by simp [h]⟩
        · exact ⟨st.relationField, st.relationParentTable, by simp [h]⟩

/-- The whole relation-attribute fold of a field only rewrites the two
relation slots of the loop state. -/
theorem relFold_shape (fname : String) (attrs : List Attr) : ∀ st,
    ∃ rf rpt, relFold fname st attrs =
      { st with relationField := rf, relationParentTable := rpt } := by
  induction attrs with
  | nil => exact fun st => ⟨st.relationField, st.relationParentTable, rfl⟩
  | cons a t ih =>
    intro st
    simp only [relFold, List.foldl_cons]
    by_cases h : (a.path == "relation") = true
    · obtain ⟨rf1, rpt1, h1⟩ := processRelationAttr_shape st fname a.items
      obtain ⟨rf2, rpt2, h2⟩ := ih (processRelationAttr st fname a.items)
      simp only [relFold] at h2
      refine ⟨rf2, rpt2, ?_⟩
      simp only [h, if_true]
      rw [h2, h1]
    · obtain ⟨rf2, rpt2, h2⟩ := ih st
      simp only [relFold] at h2
      refine ⟨rf2, rpt2, ?_⟩
      simp only [h, if_false]
      exact h2

/-- Effect of the field loop on a regular field (not id, not a timestamp). -/
theorem processField_regular (d : String) (st : LoopState) (f : FieldInput)
    (h1 : f.name ≠ "id") (h2 : f.name ≠ "created_at") (h3 : f.name ≠ "updated_at") :
    ∃ rf rpt, processField d st f =
      { st with
        fieldDefs := st.fieldDefs ++ [f.name ++ " " ++ sqlType f.tyStr]
        fieldNames := st.fieldNames ++ [f.name]
        bindInsert := if st.skipInsert.contains f.name then st.bindInsert
                      else st.bindInsert ++ [f.name]
        bindUpdate := st.bindUpdate ++ [f.name]
        updateClauses := st.updateClauses ++
          [if d == "postgres" then f.name ++ " = $" ++ toString (st.updateClauses.length + 1)
           else f.name ++ " = ?"]
        relationField := rf, relationParentTable := rpt } := by
  obtain ⟨rf, rpt, hr⟩ := relFold_shape f.name f.attrs st
  simp only [relFold] at hr
  have e1 : (f.name == "id") = false := beq_eq_false_iff_ne.mpr h1
  have e2 : (f.name == "created_at") = false := beq_eq_false_iff_ne.mpr h2
  have e3 : (f.name == "updated_at") = false := beq_eq_false_iff_ne.mpr h3
  refine ⟨rf, rpt, ?_⟩
  simp only [processField]
  rw [hr]
  cases hc : st.skipInsert.contains f.name
  · have hmem : f.name ∉ st.skipInsert := by simpa using hc
    simp [e1, h2, h3, hc, hmem]
  · have hmem : f.name ∈ st.skipInsert := by simpa using hc
    simp [e1, h2, h3, hc, hmem]

/-- Effect of the field loop on a timestamp field. -/
theorem processField_ts (d : String) (st : LoopState) (f : FieldInput)
    (h : f.name = "created_at" ∨ f.name = "updated_at") :
    ∃ rf rpt, processField d st f =
      { st with
        fieldDefs := st.fieldDefs ++ [f.name ++ " TEXT DEFAULT CURRENT_TIMESTAMP"]
        skipInsert := st.skipInsert ++ [f.name]
        updateClauses := if f.name == "updated_at"
          then st.updateClauses ++ ["updated_at = CURRENT_TIMESTAMP"] else st.updateClauses
        relationField := rf, relationParentTable := rpt } := by
  obtain ⟨rf, rpt, hr⟩ := relFold_shape f.name f.attrs st
  simp only [relFold] at hr
  refine ⟨rf, rpt, ?_⟩
  simp only [processField]
  rw [hr]
  rcases h with h | h <;> simp [h]

/-- Effect of the field loop on the id field. -/
theorem processField_id (d : String) (st : LoopState) (f : FieldInput) (h : f.name = "id") :
    ∃ rf rpt, processField d st f =
      { st with
        fieldDefs := st.fieldDefs ++ ["id INTEGER PRIMARY KEY AUTOINCREMENT"]
        fieldNames := st.fieldNames ++ ["id"]
        skipInsert := st.skipInsert ++ ["id"]
        relationField := rf, relationParentTable := rpt } := by
  obtain ⟨rf, rpt, hr⟩ := relFold_shape f.name f.attrs st
  simp only [relFold] at hr
  refine ⟨rf, rpt, ?_⟩
  simp only [processField]
  rw [hr]
  simp [h]

/-- The collected field names of a loop run. -/
theorem foldl_fieldNames (d : String) (fs : List FieldInput) : ∀ st : LoopState,
    (fs.foldl (processField d) st).fieldNames = st.fieldNames ++ namesOf fs := by
  induction fs with
  | nil => intro st; simp [namesOf]
  | cons f t ih =>
    intro st
    simp only [List.foldl_cons]
    by_cases hts : f.name = "created_at" ∨ f.name = "updated_at"
    · obtain ⟨rf, rpt, h⟩ := processField_ts d st f hts
      rw [h, ih]
      rcases hts with h1 | h1 <;> simp [namesOf, h1]
    · push_neg at hts
      obtain ⟨h2, h3⟩ := hts
      by_cases hid : f.name = "id"
      · obtain ⟨rf, rpt, h⟩ := processField_id d st f hid
        rw [h, ih]
        simp [namesOf, h2, h3, hid]
      · obtain ⟨rf, rpt, h⟩ := processField_regular d st f hid h2 h3
        rw [h, ih]
        simp [namesOf, h2, h3]

/-- The collected skip-insert names of a loop run. -/
theorem foldl_skipInsert (d : String) (fs : List FieldInput) : ∀ st : LoopState,
    (fs.foldl (processField d) st).skipInsert = st.skipInsert ++ skipsOf fs := by
  induction fs with
  | nil => intro st; simp [skipsOf]
  | cons f t ih =>
    intro st
    simp only [List.foldl_cons]
    by_cases hts : f.name = "created_at" ∨ f.name = "updated_at"
    · obtain ⟨rf, rpt, h⟩ := processField_ts d st f hts
      rw [h, ih]
      rcases hts with h1 | h1 <;> simp [skipsOf, h1]
    · push_neg at hts
      obtain ⟨h2, h3⟩ := hts
      by_cases hid : f.name = "id"
      · obtain ⟨rf, rpt, h⟩ := processField_id d st f hid
        rw [h, ih]
        simp [skipsOf, h2, h3, hid]
      · obtain ⟨rf, rpt, h⟩ := processField_regular d st f hid h2 h3
        rw [h, ih]
        simp [skipsOf, h2, h3, hid]

/-- The loop never adds a timestamp name to the insert bindings. -/
theorem foldl_bindInsert_ts (d s : String) (hs : s = "created_at" ∨ s = "updated_at")
    (fs : List FieldInput) : ∀ st : LoopState,
    (fs.foldl (processField d) st).bindInsert.contains s = st.bindInsert.contains s := by
  induction fs with
  | nil => intro st; rfl
  | cons f t ih =>
    intro st
    simp only [List.foldl_cons]
    by_cases hts : f.name = "created_at" ∨ f.name = "updated_at"
    · obtain ⟨rf, rpt, h⟩ := processField_ts d st f hts
      rw [h, ih]
    · push_neg at hts
      obtain ⟨h2, h3⟩ := hts
      by_cases hid : f.name = "id"
      · obtain ⟨rf, rpt, h⟩ := processField_id d st f hid
        rw [h, ih]
      · obtain ⟨rf, rpt, h⟩ := processField_regular d st f hid h2 h3
        rw [h, ih]
        have hne : s ≠ f.name := by
          rcases hs with h | h <;> subst h
          · exact fun he => h2 he.symm
          · exact fun he => h3 he.symm
        cases hc : st.skipInsert.contains f.name <;> simp [hc, hne]

/-- Timestamp names never appear among the collected field names. -/
theorem namesOf_ts (s : String) (hs : s = "created_at" ∨ s = "updated_at") :
    ∀ fs : List FieldInput, (namesOf fs).contains s = false := by
  intro fs
  induction fs with
  | nil => rfl
  | cons f t ih =>
    by_cases hts : (f.name == "created_at" || f.name == "updated_at") = true
    · simp only [namesOf, hts, if_true]
      exact ih
    · have hne : s ≠ f.name := by
        simp only [Bool.or_eq_true, beq_iff_eq] at hts
        push_neg at hts
        rcases hs with h | h <;> subst h
        · exact fun he => hts.1 he.symm
        · exact fun he => hts.2 he.symm
      simp only [namesOf, hts, if_false]
      have ih2 : s ∉ namesOf t := by simpa using ih
      simp [hne, ih2]

/-- Over regular fields with the postgres dialect, the loop emits one
ordinal SET clause and one update binding per field, ordinals continuing
from the clauses already present. -/
theorem foldl_regular_pg : ∀ fs : List FieldInput,
    (∀ f ∈ fs, f.name ≠ "id" ∧ f.name ≠ "created_at" ∧ f.name ≠ "updated_at") →
    ∀ st : LoopState,
    ((fs.foldl (processField "postgres") st).updateClauses
        = st.updateClauses ++ ordClauses st.updateClauses.length (fs.map (·.name)))
    ∧ ((fs.foldl (processField "postgres") st).bindUpdate
        = st.bindUpdate ++ fs.map (·.name)) := by
  intro fs
  induction fs with
  | nil => intro _ st; simp [ordClauses]
  | cons f t ih =>
    intro h st
    obtain ⟨h1, h2, h3⟩ := h f (List.mem_cons_self f t)
    have ht := fun g hg => h g (List.mem_cons_of_mem f hg)
    obtain ⟨rf, rpt, hp⟩ := processField_regular "postgres" st f h1 h2 h3
    simp only [List.foldl_cons]
    rw [hp]
    obtain ⟨iu, ib⟩ := ih ht _
    constructor
    · rw [iu]
      simp [ordClauses, List.append_assoc]
    · rw [ib]
      simp

/-- With an all-absent body, the generated SET-clause blocks leave the
builder untouched. -/
theorem patchFold_absent (body : PatchBody) (hb : ∀ n, body n = none) :
    ∀ (names : List String) (acc : PatchBuild),
      names.foldl (patchSetStep body) acc = acc := by
  intro names
  induction names with
  | nil => intro acc; rfl
  | cons n t ih =>
    intro acc
    simp only [List.foldl_cons]
    have hstep : patchSetStep body acc n = acc := by
      simp [patchSetStep, hb n]
    rw [hstep]
    exact ih acc

/-- One SET-clause block never looks at the timestamp entries of the body. -/
theorem patchSetStep_scrub (body : PatchBody) (acc : PatchBuild) (n : String) :
    patchSetStep (scrubTs body) acc n = patchSetStep body acc n := by
  by_cases h : (n == "id" || n == "created_at" || n == "updated_at") = true
  · simp [patchSetStep, h]
  · have h2 : (n == "created_at" || n == "updated_at") = false := by
      revert h
      cases n == "id" <;> cases n == "created_at" <;> cases n == "updated_at" <;> simp
    have hsc : scrubTs body n = body n := by simp [scrubTs, h2]
    simp only [patchSetStep, h, hsc]

/-- The SET-clause fold never looks at the timestamp entries of the body. -/
theorem patchFold_scrub (body : PatchBody) :
    ∀ (names : List String) (acc : PatchBuild),
      names.foldl (patchSetStep (scrubTs body)) acc = names.foldl (patchSetStep body) acc := by
  intro names
  induction names with
  | nil => intro acc; rfl
  | cons n t ih =>
    intro acc
    simp only [List.foldl_cons, patchSetStep_scrub]
    exact ih _

/-- The full SET-clause builder never looks at the timestamp entries of the
body. -/
theorem patchAfterSet_scrub (c : Compiled) (body : PatchBody) :
    patchAfterSet c (scrubTs body) = patchAfterSet c body := by
  unfold patchAfterSet
  rw [patchFold_scrub]

/-- The PATCH bindings never look at the timestamp entries of the body. -/
theorem patchBinds_scrub (c : Compiled) (body : PatchBody) :
    patchBinds c (scrubTs body) = patchBinds c body := by
  unfold patchBinds
  generalize c.st.fieldNames = names
  have hgen : ∀ bs : List String,
      names.foldl (fun bs name =>
        if name == "id" || name == "created_at" || name == "updated_at" then bs
        else
          match scrubTs body name with
          | some v => bs ++ [v]
          | none => bs) bs
      = names.foldl (fun bs name =>
        if name == "id" || name == "created_at" || name == "updated_at" then bs
        else
          match body name with
          | some v => bs ++ [v]
          | none => bs) bs := by
    induction names with
    | nil => intro bs; rfl
    | cons n t ih =>
      intro bs
      simp only [List.foldl_cons]
      by_cases h : (n == "id" || n == "created_at" || n == "updated_at") = true
      · rw [if_pos h, if_pos h]
        exact ih _
      · have h2 : (n == "created_at" || n == "updated_at") = false := by
          revert h
          cases n == "id" <;> cases n == "created_at" <;> cases n == "updated_at" <;> simp
        have hsc : scrubTs body n = body n := by simp [scrubTs, h2]
        rw [if_neg h, if_neg h, hsc]
        exact ih _
  exact hgen []

/-- The loop state of a compiled entity. -/
theorem compile_st (e : EntityInput) :
    (compile e).st = e.fields.foldl (processField (parseDbType e.attrs)) initState := rfl

/-- The field names of a compiled entity. -/
theorem compile_fieldNames (e : EntityInput) :
    (compile e).st.fieldNames = namesOf e.fields := by
  rw [compile_st, foldl_fieldNames]
  rfl

/-- The skip-insert names of a compiled entity. -/
theorem compile_skipInsert (e : EntityInput) :
    (compile e).st.skipInsert = skipsOf e.fields := by
  rw [compile_st, foldl_skipInsert]
  rfl

/-- The insert columns of a compiled entity. -/
theorem compile_insertFields (e : EntityInput) :
    (compile e).insertFields
      = (namesOf e.fields).filter (fun n => !(skipsOf e.fields).contains n) := by
  show (compile e).st.fieldNames.filter (fun n => !(compile e).st.skipInsert.contains n) = _
  rw [compile_fieldNames, compile_skipInsert]

/-- A timestamp name is never among the collected field names. -/
theorem compile_fieldNames_ts (e : EntityInput) (s : String)
    (hs : s = "created_at" ∨ s = "updated_at") :
    (compile e).st.fieldNames.contains s = false := by
  rw [compile_fieldNames]
  exact namesOf_ts s hs e.fields

/-- A timestamp name is never among the insert bindings. -/
theorem compile_bindInsert_ts (e : EntityInput) (s : String)
    (hs : s = "created_at" ∨ s = "updated_at") :
    (compile e).st.bindInsert.contains s = false := by
  rw [compile_st, foldl_bindInsert_ts _ s hs]
  rfl

/-- A constant map is a replicate. -/
theorem map_const_q (l : List String) :
    l.map (fun _ => "?") = List.replicate l.length "?" := by
  induction l with
  | nil => rfl
  | cons a t ih => simp [List.replicate, ih]

/-! ## Claim theorems -/

/-- C1: refutation at a concrete input: executing the generated full-update
(PUT) or delete (DELETE) statement with zero affected rows still yields 200,
not 404: both handlers ignore the affected-row count of a successful
execution. -/
theorem C1_counterexample :
    (update (compile postInput) ["user"] 7 (fun n => n) (Except.ok 0)).1 = Resp.ok
    ∧ (delete (compile postInput) ["user"] 999 (Except.ok 0)).1 = Resp.ok
    ∧ Resp.ok ≠ Resp.notFound := ⟨rfl, rfl, by decide⟩

/-- C1 (amended): the get-one handler yields 404 when no row matches and the
partial-update (PATCH) handler maps a zero affected-row count to 404, but the
full-update (PUT) and delete (DELETE) handlers return 200 on every successful
execution, whatever the affected-row count. -/
theorem C1_amended_thm (c : Compiled) (user : List String) (id : Int)
    (item : String → String) (body : PatchBody)
    (hr : roleCheckPasses c.roles.read user = true)
    (hu : roleCheckPasses c.roles.update user = true)
    (hd : roleCheckPasses c.roles.delete user = true)
    (hb : (patchAfterSet c body).first = false) :
    (get_one c user id (Except.ok none)).1 = Resp.notFound
    ∧ (patch c user id body (Except.ok 0)).1 = Resp.notFound
    ∧ (∀ n : Nat, (update c user id item (Except.ok n)).1 = Resp.ok)
    ∧ (∀ n : Nat, (delete c user id (Except.ok n)).1 = Resp.ok) := by
  refine ⟨?_, ?_, ?_, ?_⟩
  · simp [get_one, hr]
  · simp [patch, hu, hb]
  · intro n; simp [update, hu]
  · intro n; simp [delete, hd]

/-- Witness for C1 (amended) at the demo Post entity. -/
theorem C1_amended_witness :
    (get_one (compile postInput) ["admin"] 1 (Except.ok none)).1 = Resp.notFound
    ∧ (patch (compile postInput) ["admin"] 1
        (fun n => if n == "title" then some "x" else none) (Except.ok 0)).1 = Resp.notFound
    ∧ (∀ n : Nat, (update (compile postInput) ["admin"] 1 (fun n => n) (Except.ok n)).1 = Resp.ok)
    ∧ (∀ n : Nat, (delete (compile postInput) ["admin"] 1 (Except.ok n)).1 = Resp.ok) :=
  C1_amended_thm (compile postInput) ["admin"] 1 (fun n => n)
    (fun n => if n == "title" then some "x" else none) rfl rfl rfl rfl

/-- C2: for each operation category with a declared required role, a caller
whose role set contains neither that role nor the administrator role receives
Forbidden with zero SQL statements built, bound or dispatched (the read role
gates get-all, get-one and the nested listing; the update role gates create,
full update and partial update; the delete role gates delete); when no role
is declared for a category, the gate never rejects a caller. -/
theorem C2_role_gate (c : Compiled) (user : List String) (r : String) (id pid : Int)
    (item : String → String) (body : PatchBody) (dbL : Except String (List String))
    (dbO : Except String (Option String)) (dbN : Except String Nat) :
    (c.roles.read = some r → user.contains "admin" = false → user.contains r = false →
      get_all c user dbL = (.forbidden, [])
      ∧ get_one c user id dbO = (.forbidden, [])
      ∧ get_by_parent_id c user pid dbL = (.forbidden, []))
    ∧ (c.roles.update = some r → user.contains "admin" = false → user.contains r = false →
      create c user item dbN = (.forbidden, [])
      ∧ update c user id item dbN = (.forbidden, [])
      ∧ patch c user id body dbN = (.forbidden, []))
    ∧ (c.roles.delete = some r → user.contains "admin" = false → user.contains r = false →
      delete c user id dbN = (.forbidden, []))
    ∧ (c.roles.read = none →
      (get_all c user dbL).1 ≠ Resp.forbidden
      ∧ (get_one c user id dbO).1 ≠ Resp.forbidden
      ∧ (get_by_parent_id c user pid dbL).1 ≠ Resp.forbidden)
    ∧ (c.roles.update = none →
      (create c user item dbN).1 ≠ Resp.forbidden
      ∧ (update c user id item dbN).1 ≠ Resp.forbidden
      ∧ (patch c user id body dbN).1 ≠ Resp.forbidden)
    ∧ (c.roles.delete = none → (delete c user id dbN).1 ≠ Resp.forbidden) := by
  refine ⟨?_, ?_, ?_, ?_, ?_, ?_⟩
  · intro h ha hr2
    have ha2 : "admin" ∉ user := by simpa using ha
    have hr3 : r ∉ user := by simpa using hr2
    have hg : roleCheckPasses c.roles.read user = false := by
      simp [roleCheckPasses, h, ha2, hr3]
    refine ⟨?_, ?_, ?_⟩ <;> simp [get_all, get_one, get_by_parent_id, hg]
  · intro h ha hr2
    have ha2 : "admin" ∉ user := by simpa using ha
    have hr3 : r ∉ user := by simpa using hr2
    have hg : roleCheckPasses c.roles.update user = false := by
      simp [roleCheckPasses, h, ha2, hr3]
    refine ⟨?_, ?_, ?_⟩ <;> simp [create, update, patch, hg]
  · intro h ha hr2
    have ha2 : "admin" ∉ user := by simpa using ha
    have hr3 : r ∉ user := by simpa using hr2
    have hg : roleCheckPasses c.roles.delete user = false := by
      simp [roleCheckPasses, h, ha2, hr3]
    simp [delete, hg]
  · intro h
    have hg : roleCheckPasses c.roles.read user = true := by simp [roleCheckPasses, h]
    refine ⟨?_, ?_, ?_⟩
    · cases dbL <;> simp [get_all, hg]
    · rcases dbO with _ | o
      · simp [get_one, hg]
      · cases o <;> simp [get_one, hg]
    · cases dbL <;> simp [get_by_parent_id, hg]
  · intro h
    have hg : roleCheckPasses c.roles.update user = true := by simp [roleCheckPasses, h]
    refine ⟨?_, ?_, ?_⟩
    · cases dbN <;> simp [create, hg]
    · cases dbN <;> simp [update, hg]
    · by_cases hb : (patchAfterSet c body).first
      · simp [patch, hg, hb]
      · rcases dbN with e | n
        · simp [patch, hg, hb]
        · by_cases hn : n > 0 <;> simp [patch, hg, hb, hn]
  · intro h
    have hg : roleCheckPasses c.roles.delete user = true := by simp [roleCheckPasses, h]
    cases dbN <;> simp [delete, hg]

/-- Witness for C2: a role-lacking caller is rejected without SQL on the
gated Post entity, and callers pass freely on the role-free Item entity. -/
theorem C2_role_gate_witness :
    (get_all (compile postInput) ["nobody"] (Except.ok []) = (.forbidden, []))
    ∧ (patch (compile postInput) ["nobody"] 1 (fun _ => none) (Except.ok 0) = (.forbidden, []))
    ∧ ((get_all (compile itemInput) [] (Except.ok [])).1 ≠ Resp.forbidden)
    ∧ ((delete (compile itemInput) [] 1 (Except.ok 0)).1 ≠ Resp.forbidden) := by
  have h1 := C2_role_gate (compile postInput) ["nobody"] "user" 1 1 (fun n => n)
    (fun _ => none) (Except.ok []) (Except.ok none) (Except.ok 0)
  have h2 := C2_role_gate (compile itemInput) [] "user" 1 1 (fun n => n)
    (fun _ => none) (Except.ok []) (Except.ok none) (Except.ok 0)
  exact ⟨(h1.1 rfl rfl rfl).1, (h1.2.1 rfl rfl rfl).2.2, (h2.2.2.2.1 rfl).1,
    h2.2.2.2.2.2 rfl⟩

/-- C3: refutation for postgres: the WHERE-id placeholder of the emitted
full-update statement is the positional one, never an ordinal, so the
placeholder sequence is ordinal 1, ordinal 2, positional where the claim
demands ordinals 1..3 for the three bound values; moreover, declaring the
updated-timestamp field before a regular field shifts the SET ordinals (a
lone bound value gets ordinal 2, and no ordinal 1 is ever emitted). -/
theorem C3_counterexample :
    (update (compile postPgInput) ["admin"] 7 (fun n => n) (Except.ok 1)).2 =
      [("UPDATE post SET title = $1, content = $2, updated_at = CURRENT_TIMESTAMP WHERE id = ?",
        ["title", "content", "7"])]
    ∧ scanPlaceholders
        "UPDATE post SET title = $1, content = $2, updated_at = CURRENT_TIMESTAMP WHERE id = ?"
      = [.ord 1, .ord 2, .q]
    ∧ [Placeholder.ord 1, .ord 2, .q]
      ≠ (List.range 3).map (fun i => Placeholder.ord (i + 1))
    ∧ (compile postPgEarlyTs).st.updateClauses
      = ["updated_at = CURRENT_TIMESTAMP", "title = $2"]
    ∧ (compile postPgEarlyTs).st.bindUpdate = ["title"] :=
  ⟨rfl, rfl, by decide, rfl, rfl⟩

/-- C3 (amended): for a postgres entity whose updated-timestamp field is
declared after all regular fields, the emitted SET clauses carry ordinals
1..n matching the number and order of the n bound non-id values, followed by
the timestamp assignment; the WHERE-id placeholder however is emitted as the
positional one. -/
theorem C3_amended_thm (fs : List FieldInput)
    (h : ∀ f ∈ fs, f.name ≠ "id" ∧ f.name ≠ "created_at" ∧ f.name ≠ "updated_at")
    (user : List String) (id : Int) (item : String → String) (db : Except String Nat) :
    (compile (mkPgEntity fs)).st.updateClauses
        = ordClauses 0 (fs.map (·.name)) ++ ["updated_at = CURRENT_TIMESTAMP"]
    ∧ (compile (mkPgEntity fs)).st.bindUpdate = fs.map (·.name)
    ∧ (update (compile (mkPgEntity fs)) user id item db).2.map Prod.fst
        = ["UPDATE post SET "
            ++ String.intercalate ", "
                (ordClauses 0 (fs.map (·.name)) ++ ["updated_at = CURRENT_TIMESTAMP"])
            ++ " WHERE id = ?"]
    ∧ (update (compile (mkPgEntity fs)) user id item db).2.map Prod.snd
        = [fs.map (fun f => item f.name) ++ [toString id]] := by
  have hst : (compile (mkPgEntity fs)).st
      = processField "postgres"
          (fs.foldl (processField "postgres") (processField "postgres" initState idF)) updF := by
    rw [compile_st]
    show (idF :: (fs ++ [updF])).foldl (processField (parseDbType (mkPgEntity fs).attrs))
        initState = _
    have hdb : parseDbType (mkPgEntity fs).attrs = "postgres" := rfl
    rw [hdb, List.foldl_cons, List.foldl_append, List.foldl_cons, List.foldl_nil]
  obtain ⟨hu, hb⟩ := foldl_regular_pg fs h (processField "postgres" initState idF)
  have h0u : (processField "postgres" initState idF).updateClauses = [] := rfl
  rw [h0u] at hu
  simp only [List.nil_append, List.length_nil] at hu
  have h0b : (processField "postgres" initState idF).bindUpdate = [] := rfl
  rw [h0b] at hb
  simp only [List.nil_append] at hb
  obtain ⟨rf, rpt, hts⟩ := processField_ts "postgres"
    (fs.foldl (processField "postgres") (processField "postgres" initState idF)) updF
    (Or.inr rfl)
  have hUC : (compile (mkPgEntity fs)).st.updateClauses
      = ordClauses 0 (fs.map (·.name)) ++ ["updated_at = CURRENT_TIMESTAMP"] := by
    rw [hst, hts]
    show (if (updF.name == "updated_at") = true
        then (fs.foldl (processField "postgres")
            (processField "postgres" initState idF)).updateClauses
          ++ ["updated_at = CURRENT_TIMESTAMP"]
        else (fs.foldl (processField "postgres")
            (processField "postgres" initState idF)).updateClauses)
      = ordClauses 0 (fs.map (·.name)) ++ ["updated_at = CURRENT_TIMESTAMP"]
    have hc : (updF.name == "updated_at") = true := rfl
    rw [if_pos hc, hu]
  have hBU : (compile (mkPgEntity fs)).st.bindUpdate = fs.map (·.name) := by
    rw [hst, hts]
    exact hb
  have hrole : (compile (mkPgEntity fs)).roles.update = none := rfl
  have hupd : (update (compile (mkPgEntity fs)) user id item db).2
      = [("UPDATE " ++ (compile (mkPgEntity fs)).tableName ++ " SET "
            ++ (compile (mkPgEntity fs)).updateSql ++ " WHERE "
            ++ (compile (mkPgEntity fs)).idField ++ " = ?",
          (compile (mkPgEntity fs)).st.bindUpdate.map item ++ [toString id])] := by
    cases db <;> simp [update, hrole, roleCheckPasses]
  have hus : (compile (mkPgEntity fs)).updateSql
      = String.intercalate ", "
          (ordClauses 0 (fs.map (·.name)) ++ ["updated_at = CURRENT_TIMESTAMP"]) := by
    show String.intercalate ", " (compile (mkPgEntity fs)).st.updateClauses = _
    rw [hUC]
  refine ⟨hUC, hBU, ?_, ?_⟩
  · rw [hupd]
    simp only [List.map_cons, List.map_nil, List.cons.injEq, and_true]
    rw [hus]
    have htbl : (compile (mkPgEntity fs)).tableName = "post" := rfl
    have hid : (compile (mkPgEntity fs)).idField = "id" := rfl
    rw [htbl, hid]
    generalize String.intercalate ", "
      (ordClauses 0 (fs.map (·.name)) ++ ["updated_at = CURRENT_TIMESTAMP"]) = X
    simp only [String.append_assoc]
    rfl
  · rw [hupd]
    simp only [List.map_cons, List.map_nil, List.cons.injEq, and_true]
    rw [hBU]
    simp [List.map_map, Function.comp]

/-- Witness for C3 (amended) at the demo Post field list. -/
theorem C3_amended_witness :
    (compile (mkPgEntity pgDemoFields)).st.updateClauses
      = ["title = $1", "content = $2", "updated_at = CURRENT_TIMESTAMP"]
    ∧ (compile (mkPgEntity pgDemoFields)).st.bindUpdate = ["title", "content"] := by
  have h := C3_amended_thm pgDemoFields (by decide) ["admin"] 7 (fun n => n) (Except.ok 1)
  exact ⟨by rw [h.1]; rfl, by rw [h.2.1]; rfl⟩

/-- C4: refutation: for the demo Post entity compiled with the postgres
dialect the insert placeholders are two positional marks, not the ordinals
the claim demands. -/
theorem C4_counterexample :
    (compile postPgInput).dbType = "postgres"
    ∧ (compile postPgInput).insertPlaceholders = "?, ?"
    ∧ "?, ?" ≠ "$1, $2" := ⟨rfl, rfl, by decide⟩

/-- C4 (amended): the insert placeholders are the positional mark repeated
once per insert column for every declared dialect: the insert placeholder
generator is dialect-independent. -/
theorem C4_amended_thm (sn : String) (fields : List FieldInput) (d1 d2 : String) :
    (compile ⟨sn, [⟨"rest_api", [⟨"db", .str d1⟩]⟩], fields⟩).insertPlaceholders
      = (compile ⟨sn, [⟨"rest_api", [⟨"db", .str d2⟩]⟩], fields⟩).insertPlaceholders
    ∧ (compile ⟨sn, [⟨"rest_api", [⟨"db", .str d1⟩]⟩], fields⟩).insertPlaceholders
      = String.intercalate ", "
          (List.replicate
            (compile ⟨sn, [⟨"rest_api", [⟨"db", .str d1⟩]⟩], fields⟩).insertFields.length
            "?") := by
  have hph : ∀ d : String,
      (compile ⟨sn, [⟨"rest_api", [⟨"db", .str d⟩]⟩], fields⟩).insertPlaceholders
        = String.intercalate ", "
            ((compile ⟨sn, [⟨"rest_api", [⟨"db", .str d⟩]⟩], fields⟩).insertFields.map
              (fun _ => "?")) := fun d => rfl
  constructor
  · rw [hph d1, hph d2, compile_insertFields, compile_insertFields]
  · rw [hph d1, map_const_q]

/-- C5 (code bug): the generated PATCH updated-at block is guarded by the
collected field names containing "updated_at", but the field loop skips
timestamp names before collecting them, so the guard is false for every
entity; concretely, a PATCH on the demo Post entity with a present title
builds a SET clause with no updated-at assignment. -/
theorem C5_updated_at_dead (e : EntityInput) :
    (compile e).st.fieldNames.contains "updated_at" = false
    ∧ patch (compile postInput) ["user"] 1
        (fun n => if n == "title" then some "c" else none) (Except.ok 1)
      = (.ok, [("UPDATE post SET title = ? WHERE id = ?", ["c", "1"])]) := by
  refine ⟨compile_fieldNames_ts e _ (Or.inr rfl), by rfl⟩

/-- C6: a partial-update (PATCH) request whose body has every field absent
returns 200 and dispatches no SQL statement at all. -/
theorem C6_empty_patch_no_sql (e : EntityInput) (user : List String) (id : Int)
    (body : PatchBody) (db : Except String Nat)
    (hgate : roleCheckPasses (compile e).roles.update user = true)
    (hb : ∀ n, body n = none) :
    patch (compile e) user id body db = (.ok, []) := by
  have hts : (compile e).st.fieldNames.contains "updated_at" = false :=
    compile_fieldNames_ts e _ (Or.inr rfl)
  have hmem : "updated_at" ∉ (compile e).st.fieldNames := by simpa using hts
  simp only [patch, patchAfterSet]
  rw [patchFold_absent body hb]
  simp [hgate, hmem]

/-- Witness for C6 at the demo Post entity. -/
theorem C6_witness :
    patch (compile postInput) ["user"] 5 (fun _ => none) (Except.ok 0) = (.ok, []) :=
  C6_empty_patch_no_sql postInput ["user"] 5 (fun _ => none) (Except.ok 0) rfl (fun _ => rfl)

/-- C7: refutation: a PATCH payload that explicitly supplies created_at does
not get that field into the emitted SET clause: the generated per-field
blocks skip timestamp fields unconditionally. -/
theorem C7_counterexample :
    patch (compile postInput) ["user"] 1
      (fun n => if n == "created_at" then some "2020-01-01"
                else if n == "title" then some "t" else none)
      (Except.ok 1)
    = (.ok, [("UPDATE post SET title = ? WHERE id = ?", ["t", "1"])])
    ∧ strContains "UPDATE post SET title = ? WHERE id = ?" "created_at" = false := ⟨rfl, rfl⟩

/-- C7 (amended): timestamp fields are excluded from the insert column list
and bindings, and are always excluded from the PATCH SET clause and
bindings, even when the payload explicitly supplies them: the PATCH handler
is invariant under scrubbing the timestamp entries of the body. -/
theorem C7_amended_thm (e : EntityInput) (user : List String) (id : Int)
    (body : PatchBody) (db : Except String Nat) :
    ((compile e).insertFields.contains "created_at" = false)
    ∧ ((compile e).insertFields.contains "updated_at" = false)
    ∧ ((compile e).st.bindInsert.contains "created_at" = false)
    ∧ ((compile e).st.bindInsert.contains "updated_at" = false)
    ∧ patch (compile e) user id (scrubTs body) db = patch (compile e) user id body db := by
  have hN : ∀ s, s = "created_at" ∨ s = "updated_at" →
      (compile e).insertFields.contains s = false := by
    intro s hs
    have h1 := compile_fieldNames_ts e s hs
    rw [compile_fieldNames] at h1
    have h2 : s ∉ namesOf e.fields := by simpa using h1
    rw [compile_insertFields]
    simp [List.mem_filter, h2]
  refine ⟨hN _ (Or.inl rfl), hN _ (Or.inr rfl),
    compile_bindInsert_ts e _ (Or.inl rfl), compile_bindInsert_ts e _ (Or.inr rfl), ?_⟩
  unfold patch
  rw [patchAfterSet_scrub, patchBinds_scrub]

/-- C8: refutation: a relation reference that is not a two-part table.column
string does not fail extraction: the entity compiles to exactly the output
of the same entity without the relation annotation and its six routes are
registered; a require_role value of the wrong literal kind is silently
dropped as well. -/
theorem C8_counterexample :
    compile badRefsCommentInput = compile noRelCommentInput
    ∧ (compile badRefsCommentInput).st.relationField = ""
    ∧ (routes (compile badRefsCommentInput)).length = 6
    ∧ parseRoles [⟨"require_role", [⟨"read", .int 5⟩]⟩] = ⟨none, none, none⟩ :=
  ⟨rfl, rfl, rfl, rfl⟩

/-- C8 (amended): descriptor extraction never fails: an unknown dialect
degrades to the AnyPool/generic fallback, a non-two-part reference and a
missing foreign_key or references sub-key silently disable the relation, and
a non-string role literal leaves the role unset. -/
theorem C8_amended_thm (sn : String) (fields : List FieldInput) (st : LoopState)
    (fname d refs fk : String)
    (hd : d ≠ "sqlite" ∧ d ≠ "mysql" ∧ d ≠ "postgres")
    (hr : (splitOnDot refs).length ≠ 2) :
    (compile ⟨sn, [⟨"rest_api", [⟨"db", .str d⟩]⟩], fields⟩).pool = "AnyPool"
    ∧ processRelationAttr st fname
        [⟨"foreign_key", .str fk⟩, ⟨"references", .str refs⟩] = st
    ∧ (∀ r2 : String, processRelationAttr st fname [⟨"references", .str r2⟩] = st)
    ∧ (∀ f2 : String, processRelationAttr st fname [⟨"foreign_key", .str f2⟩] = st)
    ∧ parseNestedMeta roleMetaStep ⟨none, none, none⟩ [⟨"read", .int 5⟩]
        = ⟨none, none, none⟩ := by
  refine ⟨?_, ?_, fun r2 => rfl, fun f2 => rfl, rfl⟩
  · show poolType (parseDbType [⟨"rest_api", [⟨"db", .str d⟩]⟩]) = "AnyPool"
    have hpd : parseDbType [⟨"rest_api", [⟨"db", .str d⟩]⟩] = d := rfl
    rw [hpd]
    simp [poolType, hd.1, hd.2.1, hd.2.2]
  · simp [processRelationAttr, parseNestedMeta, relMetaStep, hr]

/-- Witness for C8 (amended) at a concrete unknown dialect and one-part
reference. -/
theorem C8_amended_witness :
    poolType "oracle" = "AnyPool"
    ∧ processRelationAttr initState "post_id"
        [⟨"foreign_key", .str "post_id"⟩, ⟨"references", .str "postid"⟩] = initState := by
  have h := C8_amended_thm "Comment" [] initState "post_id" "oracle" "postid" "post_id"
    (by decide) (by decide)
  exact ⟨h.1, h.2.1⟩

/-- C9: the table name of the compiled output is the lowercased struct name
and the id column the literal "id"; the table and id annotation values are
parsed but never used, so compilation output is identical with and without
them. -/
theorem C9_table_id_annotations_unused (sn t i d : String) (fields : List FieldInput) :
    (compile ⟨sn, [⟨"rest_api",
        [⟨"table", .str t⟩, ⟨"id", .str i⟩, ⟨"db", .str d⟩]⟩], fields⟩).tableName
      = strToLower sn
    ∧ (compile ⟨sn, [⟨"rest_api",
        [⟨"table", .str t⟩, ⟨"id", .str i⟩, ⟨"db", .str d⟩]⟩], fields⟩).idField = "id"
    ∧ compile ⟨sn, [⟨"rest_api",
        [⟨"table", .str t⟩, ⟨"id", .str i⟩, ⟨"db", .str d⟩]⟩], fields⟩
      = compile ⟨sn, [⟨"rest_api", [⟨"db", .str d⟩]⟩], fields⟩ := ⟨rfl, rfl, rfl⟩

/-- C10: with both a foreign_key and a well-formed two-part references value,
the nested list-by-parent route is registered whatever the value of the
nested_route attribute: the parsed boolean is never consulted. -/
theorem C10_nested_route_ignores_flag (v : String) :
    (compile (commentWithNested v)).st.relationField = "post_id"
    ∧ (compile (commentWithNested v)).st.relationParentTable = "post"
    ∧ routes (compile (commentWithNested v)) = routes (compile (commentWithNested "true"))
    ∧ ("GET", "/post/{parent_id}/comment") ∈ routes (compile (commentWithNested v)) := by
  refine ⟨rfl, rfl, rfl, ?_⟩
  have hroutes : routes (compile (commentWithNested v))
      = [("GET", "/comment"), ("POST", "/comment"), ("GET", "/comment/{id}"),
         ("PUT", "/comment/{id}"), ("PATCH", "/comment/{id}"), ("DELETE", "/comment/{id}"),
         ("GET", "/post/{parent_id}/comment")] := rfl
  rw [hroutes]
  simp

end VerySimpleRest
